import Mathlib

/-!
Verification development for the `atfirst` agent runtime
(`src/atfirst/agent/{message,context,tool,model,agent}.py`).

The Python modules are shallowly embedded: dataclasses become structures,
mutating methods become explicit state-passing functions, `raise` becomes
`Except.error`, and Python `dict` (insertion ordered) becomes an ordered
association list with unique keys maintained by the insert operations.
-/

namespace Atfirst

/-- Roles of `Message.role` (`message.py`): `Literal["system", "assistant", "user", "tool"]`. -/
inductive Role where
  | system
  | assistant
  | user
  | tool
deriving DecidableEq, Repr

/-- The `content_type` field (`message.py`): `Literal["text"]`, a one-value type. -/
inductive CType where
  | text
deriving DecidableEq, Repr

/-- Python `str | list[str] | None`, the type of `Message.text`. -/
inductive MText where
  | none
  | str (s : String)
  | list (l : List String)
deriving DecidableEq, Repr

/-- The `function` member of a tool-call param: `{"name": ..., "arguments": ...}`. -/
structure TCFunction where
  name : String
  arguments : String
deriving DecidableEq, Repr

/-- `ToolCallParam` (`_openai.py`): `{"id": ..., "type": "function", "function": ...}`.
The constant `"type": "function"` tag is omitted. -/
structure ToolCallParam where
  id : String
  function : TCFunction
deriving DecidableEq, Repr

/-- `Message` dataclass (`message.py`). The `id` field is a process-unique
identifier produced by `uuid4().hex` at construction sites; the embedding passes
it explicitly (threaded from a counter where the source draws a fresh uuid). -/
structure Message where
  role : Role
  content_type : CType
  text : MText
  tool_calls : List ToolCallParam
  id : String
deriving DecidableEq, Repr

/-- Content of a serialized `MessageParam`: for non-tool roles the source emits
a list of `{"type": "text", "text": t}` blocks (only the `t` payloads vary);
for the tool role it assigns `self.text` unchanged. -/
inductive MPContent where
  | blocks (l : List String)
  | raw (t : MText)
deriving DecidableEq, Repr

/-- The wire message built by `Message.to_openai_message`. `tool_calls = []`
models the key being absent. -/
structure MessageParam where
  role : Role
  content : MPContent
  tool_calls : List ToolCallParam
  tool_call_id : Option String
deriving DecidableEq, Repr

/-- `Message.to_openai_message` (`message.py`). Returns the wire form together
with the (possibly mutated) receiver: the source rewrites `self.text` from a
bare string to a one-element list before serializing. Python `raise` is
`Except.error` carrying the exception text. -/
def Message.to_openai_message (self : Message) (tool_call_id : Option String) :
    Except String (MessageParam × Message) :=
  let tcs := if self.role = Role.assistant ∧ self.tool_calls ≠ [] then self.tool_calls else []
  match self.content_type with
  | CType.text =>
    match self.text with
    | MText.none => Except.error "Text is required for text content type"
    | t =>
      if self.role = Role.tool then
        match tool_call_id with
        | Option.none => Except.error "Tool call id is required for tool role"
        | Option.some tcid =>
            Except.ok
              ({ role := self.role, content := MPContent.raw t,
                 tool_calls := tcs, tool_call_id := Option.some tcid }, self)
      else
        let l := match t with
          | MText.str s => [s]
          | MText.list l => l
          | MText.none => []
        Except.ok
          ({ role := self.role, content := MPContent.blocks l,
             tool_calls := tcs, tool_call_id := Option.none },
           { self with text := MText.list l })

/-- A tool-call object inside a provider completion
(`ChatCompletionMessageFunctionToolCall`). -/
structure CompletionToolCall where
  id : String
  name : String
  arguments : String
deriving DecidableEq, Repr

/-- The message member of a completion choice: `content : str | None` and
`tool_calls : list | None`. -/
structure CompletionMessage where
  content : Option String
  tool_calls : Option (List CompletionToolCall)
deriving DecidableEq, Repr

/-- `ChatCompletion` restricted to the fields `from_completion` reads:
`completion.choices[0].message`. -/
structure ChatCompletion where
  choices : List CompletionMessage
deriving DecidableEq, Repr

/-- The text of an assistant message built from a completion:
`content : str | None` maps onto `MText`. -/
def completion_text : Option String → MText
  | Option.none => MText.none
  | Option.some s => MText.str s

/-- The per-call dict built inside `from_completion`:
`{"id": ..., "type": "function", "function": {"name": ..., "arguments": ...}}`. -/
def conv_tool_call (tc : CompletionToolCall) : ToolCallParam :=
  { id := tc.id, function := { name := tc.name, arguments := tc.arguments } }

/-- `Message.from_completion` (`message.py`). `choices[0]` on an empty list is
a Python `IndexError`, hence `Except`. `fresh` stands for the `uuid4().hex`
default id. `content` being `None` yields `MText.none`; `tool_calls or []`
turns an absent list into the empty one. -/
def Message.from_completion (completion : ChatCompletion) (fresh : String) :
    Except String Message :=
  match completion.choices with
  | [] => Except.error "IndexError: list index out of range"
  | choice :: _ =>
      Except.ok
        { role := Role.assistant
          content_type := CType.text
          text := completion_text choice.content
          tool_calls := (choice.tool_calls.getD []).map conv_tool_call
          id := fresh }

/-- The assistant message a one-choice completion turns into. -/
def msg_of_reply (content : Option String) (tcs : List CompletionToolCall)
    (fresh : String) : Message :=
  { role := Role.assistant, content_type := CType.text, text := completion_text content,
    tool_calls := tcs.map conv_tool_call, id := fresh }

/-- `_Lifecycle` dataclass (`context.py`): private fields `_max_steps = 5`,
`_current_step = 0`, `_is_terminated = False`. -/
structure Lifecycle where
  max_steps : Nat
  current_step : Nat
  is_terminated : Bool
deriving DecidableEq, Repr

/-- `_Lifecycle()` with its dataclass defaults, as constructed by
`Context.build_lifecycle`. -/
def Lifecycle.init : Lifecycle :=
  { max_steps := 5, current_step := 0, is_terminated := false }

/-- `_Lifecycle.terminate`: set the terminated flag. -/
def Lifecycle.terminate (l : Lifecycle) : Lifecycle :=
  { l with is_terminated := true }

/-- `_Lifecycle.move_forward`: increment the step counter, then terminate once
it reaches the budget. -/
def Lifecycle.move_forward (l : Lifecycle) : Lifecycle :=
  let l' := { l with current_step := l.current_step + 1 }
  if l'.current_step ≥ l'.max_steps then l'.terminate else l'

example : (Lifecycle.move_forward { max_steps := 2, current_step := 1, is_terminated := false }).is_terminated = true := by decide

example : (Lifecycle.move_forward Lifecycle.init).is_terminated = false := by decide

/-- One documented parameter as produced by `docstring_parser.parse`:
`arg_name`, `type_name` (absent when undeclared), `description`. -/
structure DocParam where
  arg_name : String
  type_name : Option String
  description : Option String
deriving DecidableEq, Repr

/-- The parsed docstring (`docstring_parser.Docstring`) restricted to the
fields `wrap` reads: the summary `description` and the parameter list. -/
structure Docstring where
  description : Option String
  params : List DocParam
deriving DecidableEq, Repr

/-- Outcome of one dynamic tool invocation in `Agent._handle_tool_calls`:
decoding the JSON argument payload, calling the function and awaiting any
coroutine are collapsed into a single observable result, because the source
wraps all three in one `try` whose handler they share.
`term` is the effect of the injected `wrap(life_cycle.terminate)` tool: it
terminates the run's lifecycle and returns `None`. -/
inductive ToolRun where
  | returns (r : Option String)
  | raises (e : String)
  | term
deriving DecidableEq, Repr

/-- A Python callable as seen by `wrap`: its `__name__`, its parsed `__doc__`
(`Option.none` when the docstring is missing), and its dynamic behaviour on a
raw JSON argument string. -/
structure PyFunc where
  name : String
  doc : Option Docstring
  behavior : String → ToolRun

/-- Schema of one parameter inside `parameters["properties"]`. -/
structure ParamSchema where
  type : String
  description : Option String
deriving DecidableEq, Repr

/-- The `parameters` object built by `wrap`: `{"type": "object", "properties",
"required"}` with insertion-ordered properties. -/
structure ToolParameters where
  properties : List (String × ParamSchema)
  required : List String
deriving DecidableEq, Repr

/-- The `function` member of a tool annotation sent to the provider. -/
structure ToolAnnoFunction where
  name : String
  description : String
  parameters : ToolParameters
  strict : Bool
deriving DecidableEq, Repr

/-- `ToolAnnotation` (`_openai.py`): `{"type": "function", "function": ...}`.
The constant `"type"` tag is omitted. -/
structure ToolAnno where
  function : ToolAnnoFunction
deriving DecidableEq, Repr

/-- `ToolWrapper` dataclass (`tool.py`). -/
structure ToolWrapper where
  name : String
  description : String
  anno : ToolAnno
  function : String → ToolRun

/-- `TYPE_MAPPING` (`tool.py`) restricted to its string keys: `param.type_name`
coming from `docstring_parser` is a string, so the type-object keys of the
source dict are never hit on this path. -/
def TYPE_MAPPING (t : String) : Option String :=
  if t = "int" then Option.some "integer"
  else if t = "str" then Option.some "string"
  else if t = "bool" then Option.some "boolean"
  else if t = "float" then Option.some "number"
  else if t = "list" then Option.some "array"
  else if t = "dict" then Option.some "object"
  else if t = "int | None" then Option.some "integer"
  else if t = "str | None" then Option.some "string"
  else if t = "bool | None" then Option.some "boolean"
  else if t = "float | None" then Option.some "number"
  else if t = "list | None" then Option.some "array"
  else if t = "dict | None" then Option.some "object"
  else Option.none

/-- Whether the first character list is an initial segment of the second. -/
def leadEq : List Char → List Char → Bool
  | [], _ => true
  | _ :: _, [] => false
  | a :: as, b :: bs => a == b && leadEq as bs

/-- Whether the needle occurs as a contiguous segment of the haystack. -/
def hasSub (haystack needle : List Char) : Bool :=
  match haystack with
  | [] => leadEq needle []
  | _ :: rest => leadEq needle haystack || hasSub rest needle

/-- Python's `needle in haystack` substring test on strings. -/
def strContains (haystack needle : String) : Bool :=
  hasSub haystack.data needle.data

/-- Python truthiness of `str | None`: `None` and the empty string are falsy. -/
def pyTruthy : Option String → Bool
  | Option.none => false
  | Option.some s => s ≠ ""

/-- `_is_tool_anno_valid` (`tool.py`): the summary must not be `None` and
every parameter's `type_name` must be truthy. -/
def is_tool_anno_valid (docs : Docstring) : Bool :=
  match docs.description with
  | Option.none => false
  | Option.some _ => docs.params.all fun p => pyTruthy p.type_name

/-- The per-parameter loop of `wrap`, folded left over `parsed_docs.params` in
declaration order. A parameter is appended to `required` when the string
`"None"` does not occur in the *mapped* type name (exactly as the source
tests `"None" not in type_name` after `type_name = TYPE_MAPPING[...]`). -/
def wrapParams : List DocParam → ToolParameters → Except String ToolParameters
  | [], acc => Except.ok acc
  | p :: rest, acc =>
    match TYPE_MAPPING (p.type_name.getD "None") with
    | Option.none => Except.error ("Unsupported type: " ++ p.type_name.getD "None")
    | Option.some type_name =>
        wrapParams rest
          { properties := acc.properties ++ [(p.arg_name, { type := type_name, description := p.description })]
            required := if ¬ strContains type_name "None" then acc.required ++ [p.arg_name] else acc.required }

/-- `wrap` (`tool.py`): validate the docstring, build the JSON-schema-like
`parameters` object, and package the callable. -/
def wrap (func : PyFunc) : Except String ToolWrapper :=
  match func.doc with
  | Option.none => Except.error "Function tool must have full annotated docstring."
  | Option.some parsed_docs =>
    if ¬ is_tool_anno_valid parsed_docs then
      Except.error "Function tool must have full annotated docstring."
    else
      match wrapParams parsed_docs.params { properties := [], required := [] } with
      | Except.error e => Except.error e
      | Except.ok parameters =>
          let desc := (parsed_docs.description.getD "").trim
          Except.ok
            { name := func.name
              description := desc
              anno := { function :=
                { name := func.name, description := desc,
                  parameters := parameters, strict := true } }
              function := func.behavior }

/-- Insertion-ordered dictionary assignment `d[k] = v` on the association-list
model of a Python `dict`: replace in place when the key exists, append
otherwise. -/
def dictInsert {α : Type} (d : List (String × α)) (k : String) (v : α) : List (String × α) :=
  if d.any (fun p => p.1 = k) then d.map (fun p => if p.1 = k then (k, v) else p)
  else d ++ [(k, v)]

/-- `Context` dataclass (`context.py`): system messages kept apart from turn
recordings, plus the tool registry (`dict[str, ToolWrapper]`, modelled as an
insertion-ordered association list with unique keys). -/
structure Context where
  system_messages : List Message
  recordings : List Message
  tools : List (String × ToolWrapper)

/-- `Context.build_context`. -/
def Context.build_context : Context :=
  { system_messages := [], recordings := [], tools := [] }

/-- `Context.add_message(*message)`: system-role messages go to the system
list, every other role to the recordings, preserving argument order. -/
def Context.add_message (ctx : Context) (message : List Message) : Context :=
  message.foldl
    (fun c msg =>
      if msg.role = Role.system then { c with system_messages := c.system_messages ++ [msg] }
      else { c with recordings := c.recordings ++ [msg] })
    ctx

/-- `Context.list_message`: a deep copy of the recordings; in the pure
embedding the copy is the value itself. -/
def Context.list_message (ctx : Context) : List Message :=
  ctx.recordings

/-- `Context.get_last_message`: raises `ValueError` on an empty recording
list, else a deep copy of the last recording. -/
def Context.get_last_message (ctx : Context) : Except String Message :=
  match ctx.recordings.getLast? with
  | Option.none => Except.error "No message available"
  | Option.some msg => Except.ok msg

/-- `Context.add_tool(*tool)`: sequentially insert each wrapper, raising
`ValueError` on a name collision. The returned context is the registry state
reached when the call returns or the exception escapes — insertions made
before a collision persist, because the source mutates `self._tools` in
place. `Option.some e` is the escaped exception text. -/
def Context.add_tool (ctx : Context) : List ToolWrapper → Context × Option String
  | [] => (ctx, Option.none)
  | t :: rest =>
    if ctx.tools.any (fun p => p.1 = t.name) then
      (ctx, Option.some ("Tool `" ++ t.name ++ "` already exists"))
    else
      Context.add_tool { ctx with tools := ctx.tools ++ [(t.name, t)] } rest

/-- `Context.get_tool`: `self._tools.get(name)`. -/
def Context.get_tool (ctx : Context) (name : String) : Option ToolWrapper :=
  (ctx.tools.find? (fun p => p.1 = name)).map Prod.snd

/-- `Context.list_tool`: the registered wrappers sorted by name
(`sorted(..., key=lambda t: t.name)`). -/
def Context.list_tool (ctx : Context) : List ToolWrapper :=
  (ctx.tools.map Prod.snd).mergeSort (fun a b => a.name ≤ b.name)

/-- `Context.list_tool_annotation`: the annotations of the registered
wrappers in *registry (insertion) order* — this list, not the sorted one, is
what `Model.aresponse` transmits. -/
def Context.list_tool_anno (ctx : Context) : List ToolAnno :=
  ctx.tools.map (fun p => p.2.anno)

/-- Serialization of one history message inside `Context.build_message`:
tool-role messages are serialized with their own `id` as the
`tool_call_id`, all others without one. -/
def serializeOne (msg : Message) : Except String (MessageParam × Message) :=
  if msg.role = Role.tool then msg.to_openai_message (Option.some msg.id)
  else msg.to_openai_message Option.none

/-- The list comprehension of `Context.build_message`: serialize each message
in turn; a `raise` inside the comprehension escapes and aborts the whole
list. -/
def serializeAll : List Message → Except String (List MessageParam)
  | [] => Except.ok []
  | msg :: rest =>
    match (serializeOne msg).map Prod.fst with
    | Except.error e => Except.error e
    | Except.ok pm =>
      match serializeAll rest with
      | Except.error e => Except.error e
      | Except.ok pms => Except.ok (pm :: pms)

/-- `Context.build_message`: serialize the deep-copied system messages followed
by the deep-copied recordings. The second component is the context after the
call: the source serializes copies, so any mutation done by
`to_openai_message` lands on the copies and the stored history is returned
untouched. -/
def Context.build_message (ctx : Context) : Except String (List MessageParam) × Context :=
  (serializeAll (ctx.system_messages ++ ctx.recordings), ctx)

/-- Whether a JSON argument payload decodes to the empty mapping: the text is
`\x7b\x7d` up to whitespace. Only such a payload reaches the zero-parameter
callable: `json.decode(tool_args, type=dict[str, Any])` rejects anything that
is not a JSON object, and `f(**kwargs)` with a non-empty mapping raises
`TypeError` for a function without parameters. -/
def decodes_to_empty_map (args : String) : Bool :=
  args.data.filter (fun c => !c.isWhitespace) == ['\x7b', '\x7d']

/-- The bound method `life_cycle.terminate` as a Python callable passed to
`wrap` in `Context.build_lifecycle`: its docstring is the summary
`"Terminate the lifecycle."` with no parameters. Invoked with a payload that
decodes to the empty mapping it terminates the owning run's lifecycle and
returns `None`; any other payload raises before the call (decode error or
`TypeError`), is caught by the dispatcher, and leaves the lifecycle
untouched. The error text stands for the Python exception's message, which
varies with the payload. -/
def terminate_func : PyFunc :=
  { name := "terminate"
    doc := Option.some { description := Option.some "Terminate the lifecycle.", params := [] }
    behavior := fun args =>
      if decodes_to_empty_map args then ToolRun.term
      else ToolRun.raises "terminate() arguments do not decode to an empty mapping" }

/-- The wrapper `wrap(life_cycle.terminate)` registered under the key
`"terminate"` by `Context.build_lifecycle`. -/
def terminate_tool : ToolWrapper :=
  match wrap terminate_func with
  | Except.ok t => t
  | Except.error _ =>
    { name := "terminate", description := "", function := terminate_func.behavior
      anno := { function := { name := "terminate", description := "",
                              parameters := { properties := [], required := [] },
                              strict := true } } }

example : wrap terminate_func = Except.ok terminate_tool := rfl

/-- The entry effect of the `Context.build_lifecycle` context manager:
construct `_Lifecycle()` with its defaults and assign
`self._tools["terminate"] = wrap(life_cycle.terminate)`. -/
def Context.enter_lifecycle (ctx : Context) : Context × Lifecycle :=
  ({ ctx with tools := dictInsert ctx.tools "terminate" terminate_tool }, Lifecycle.init)

/-- Python `tool_msg or "Tool execution success."` on `tool_msg : str | None`:
`None` and the empty string are falsy and fall back to the default. -/
def py_or (s : Option String) (dflt : String) : String :=
  match s with
  | Option.none => dflt
  | Option.some t => if t = "" then dflt else t

/-- One iteration of the loop body of `Agent._handle_tool_calls`: resolve the
named tool, run it (or synthesize the not-exist / error text), and build the
tool-role message correlated by the call's id. The lifecycle is threaded
because the injected `terminate` tool mutates it. -/
def run_one_tool_call (ctx : Context) (life : Lifecycle) (tool_call : ToolCallParam) :
    Message × Lifecycle :=
  let tool_name := tool_call.function.name
  let tool_args := tool_call.function.arguments
  let mk : Option String → Message := fun tool_msg =>
    { role := Role.tool, content_type := CType.text,
      text := MText.str (py_or tool_msg "Tool execution success."),
      tool_calls := [], id := tool_call.id }
  match ctx.get_tool tool_name with
  | Option.none => (mk (Option.some ("Tool `" ++ tool_name ++ "` is not exist.")), life)
  | Option.some tool =>
    match tool.function tool_args with
    | ToolRun.returns r => (mk r, life)
    | ToolRun.raises e =>
        (mk (Option.some ("Error executing tool " ++ tool_name ++ ": " ++ e ++ ".")), life)
    | ToolRun.term => (mk Option.none, life.terminate)

/-- The accumulator step of `Agent._handle_tool_calls`: run one call and
append its tool message to the context. -/
def dispatch_step (acc : Context × Lifecycle) (tc : ToolCallParam) : Context × Lifecycle :=
  let r := run_one_tool_call acc.1 acc.2 tc
  (acc.1.add_message [r.1], r.2)

/-- `Agent._handle_tool_calls`: read the last recorded message
(`get_last_message`, which raises on empty history) and dispatch its tool
calls sequentially in provider order. -/
def Agent.handle_tool_calls (ctx : Context) (life : Lifecycle) :
    Except String (Context × Lifecycle) :=
  match ctx.get_last_message with
  | Except.error e => Except.error e
  | Except.ok tool_call_msg =>
      Except.ok (tool_call_msg.tool_calls.foldl dispatch_step (ctx, life))

/-- The local `_format` of `Agent._handle_output`: a bare string stays, a
block list is joined with newlines, `None` stays `None`. -/
def pyFormat : MText → Option String
  | MText.str s => Option.some s
  | MText.list l => Option.some (String.intercalate "\n" l)
  | MText.none => Option.none

/-- `Agent._handle_output` on the path where no structured output schema is
configured: walk the recordings in reverse, stop at the first assistant-role
message (whatever its text), return `None` when there is none or when its
text is `None`, else its formatted text. -/
def Agent.handle_output_plain (ctx : Context) : Option String :=
  match ctx.recordings.reverse.find? (fun msg => msg.role == Role.assistant) with
  | Option.none => Option.none
  | Option.some answer => pyFormat answer.text

/-- Non-empty message text, as the spec's output-extraction sentence reads. -/
def mtext_nonempty : MText → Bool
  | MText.none => false
  | MText.str s => s ≠ ""
  | MText.list l => l ≠ []

/-- Modelled from the spec (for comparison with `Agent.handle_output_plain`,
which is the code's behaviour): "scan recordings in reverse for the most
recent assistant-role message with non-empty text; if none exists, the run's
result is no output", else that message's formatted text. -/
def spec_output_plain (ctx : Context) : Option String :=
  match ctx.recordings.reverse.find?
      (fun msg => msg.role == Role.assistant && mtext_nonempty msg.text) with
  | Option.none => Option.none
  | Option.some answer => pyFormat answer.text

/-- One scripted provider behaviour for a single request: either reject it
(`BadRequestError`, re-raised by `Model.aresponse`) or return a completion
with optional text content and a list of tool calls. -/
inductive ModelStep where
  | reject (e : String)
  | reply (content : Option String) (tool_calls : List CompletionToolCall)

/-- The request `Model.aresponse` assembles for the provider: the serialized
history (`ctx.build_message()`) and the tool schemas
(`ctx.list_tool_annotation()`), transmitted in exactly these orders. -/
structure ProviderRequest where
  messages : List MessageParam
  tools : List ToolAnno
deriving DecidableEq, Repr

/-- Request assembly inside `Model.aresponse` (`model.py`): serialization
errors escape; the tool schema list is the registry-order annotation list. -/
def Model.build_request (ctx : Context) : Except String ProviderRequest :=
  match (ctx.build_message).1 with
  | Except.error e => Except.error e
  | Except.ok msgs => Except.ok { messages := msgs, tools := ctx.list_tool_anno }

/-- `Model.aresponse` against a scripted provider behaviour: build the
request, fail when the provider rejects it (the source catches
`BadRequestError` only to re-raise it), else append
`Message.from_completion(completion)` to the context. `fresh` is the uuid for
the appended assistant message. -/
def Model.aresponse (step : ModelStep) (fresh : String) (ctx : Context) :
    Except String Context :=
  match Model.build_request ctx with
  | Except.error e => Except.error e
  | Except.ok _request =>
    match step with
    | ModelStep.reject e => Except.error e
    | ModelStep.reply content tcs =>
      match Message.from_completion
          { choices := [{ content := content, tool_calls := Option.some tcs }] } fresh with
      | Except.error e => Except.error e
      | Except.ok msg => Except.ok (ctx.add_message [msg])

/-- The loop state of `Agent.arun`: the context, the run's lifecycle, the
number of model requests issued so far, and the uuid counter. -/
structure RunState where
  ctx : Context
  life : Lifecycle
  requests : Nat
  fresh : Nat

/-- `terminate` is idempotent. -/
theorem terminate_terminate (l : Lifecycle) : (l.terminate).terminate = l.terminate := rfl

/-- The only lifecycle effect a dispatched tool call can have is
`terminate` — the step fields are never touched. -/
theorem run_one_tool_call_life (ctx : Context) (life : Lifecycle) (tc : ToolCallParam) :
    (run_one_tool_call ctx life tc).2 = life ∨
      (run_one_tool_call ctx life tc).2 = life.terminate := by
  unfold run_one_tool_call
  dsimp only
  split
  · exact Or.inl rfl
  · split
    · exact Or.inl rfl
    · exact Or.inl rfl
    · exact Or.inr rfl

/-- Dispatching a list of tool calls either leaves the lifecycle unchanged or
terminates it. -/
theorem dispatch_foldl_life (tcs : List ToolCallParam) (p : Context × Lifecycle) :
    (tcs.foldl dispatch_step p).2 = p.2 ∨ (tcs.foldl dispatch_step p).2 = p.2.terminate := by
  induction tcs generalizing p with
  | nil => exact Or.inl rfl
  | cons tc rest ih =>
      have h1 := run_one_tool_call_life p.1 p.2 tc
      have h2 := ih (dispatch_step p tc)
      simp only [List.foldl_cons]
      have hsnd : (dispatch_step p tc).2 = (run_one_tool_call p.1 p.2 tc).2 := rfl
      rcases h2 with h2 | h2 <;> rw [h2, hsnd] <;> rcases h1 with h1 | h1 <;> rw [h1]
      · exact Or.inl rfl
      · exact Or.inr rfl
      · exact Or.inr rfl
      · exact Or.inr (terminate_terminate p.2)

/-- `Agent._handle_tool_calls` either leaves the lifecycle unchanged or
terminates it. -/
theorem handle_tool_calls_life (ctx : Context) (life : Lifecycle) (ctx2 : Context)
    (life2 : Lifecycle) (h : Agent.handle_tool_calls ctx life = Except.ok (ctx2, life2)) :
    life2 = life ∨ life2 = life.terminate := by
  unfold Agent.handle_tool_calls at h
  cases hm : ctx.get_last_message with
  | error e => rw [hm] at h; exact absurd h (by simp)
  | ok msg =>
      rw [hm] at h
      injection h with h
      have h2 : life2 = (List.foldl dispatch_step (ctx, life) msg.tool_calls).2 :=
        (congrArg Prod.snd h).symm
      rw [h2]
      exact dispatch_foldl_life msg.tool_calls (ctx, life)

/-- `move_forward` preserves the step budget. -/
theorem move_forward_max (l : Lifecycle) : (l.move_forward).max_steps = l.max_steps := by
  simp only [Lifecycle.move_forward]
  split <;> rfl

/-- `move_forward` increments the step counter. -/
theorem move_forward_current (l : Lifecycle) :
    (l.move_forward).current_step = l.current_step + 1 := by
  simp only [Lifecycle.move_forward]
  split <;> rfl

/-- A non-terminated result of `move_forward` means the incremented counter is
still below the budget. -/
theorem move_forward_not_term (l : Lifecycle) (h : (l.move_forward).is_terminated = false) :
    l.current_step + 1 < l.max_steps := by
  simp only [Lifecycle.move_forward] at h
  split at h
  · exact absurd h (by simp [Lifecycle.terminate])
  · next hge => omega

/-- The recursive part of the `while not life_cycle.is_terminated` loop of
`Agent.arun`, entered with a non-terminated lifecycle: issue one model
request (`steps st.requests` is the provider's behaviour for it), dispatch
the returned tool calls, advance the lifecycle, and continue until it
terminates. Errors escape together with the state reached (the lifecycle not
yet force-terminated: that is the enclosing scope's job). -/
def run_iter (steps : Nat → ModelStep) (st : RunState) :
    Except (String × RunState) RunState :=
  match Model.aresponse (steps st.requests) (toString st.fresh) st.ctx with
  | Except.error e => Except.error (e, { st with requests := st.requests + 1 })
  | Except.ok ctx1 =>
    match h2 : Agent.handle_tool_calls ctx1 st.life with
    | Except.error e =>
        Except.error (e, { st with ctx := ctx1, requests := st.requests + 1 })
    | Except.ok (ctx2, life2) =>
      let st3 : RunState :=
        { ctx := ctx2, life := life2.move_forward,
          requests := st.requests + 1, fresh := st.fresh + 1 }
      if h3 : st3.life.is_terminated then Except.ok st3
      else run_iter steps st3
termination_by st.life.max_steps - st.life.current_step
decreasing_by
  simp only [Bool.not_eq_true] at h3
  have hs : life2.max_steps = st.life.max_steps ∧ life2.current_step = st.life.current_step := by
    rcases handle_tool_calls_life ctx1 st.life ctx2 life2 h2 with h | h <;>
      exact ⟨by simp [h, Lifecycle.terminate], by simp [h, Lifecycle.terminate]⟩
  have hlt := move_forward_not_term life2 h3
  simp only [move_forward_max, move_forward_current, hs.1, hs.2]
  omega

/-- The `while not life_cycle.is_terminated` loop of `Agent.arun`: no
iteration runs when the lifecycle is already terminated. -/
def run_loop (steps : Nat → ModelStep) (st : RunState) :
    Except (String × RunState) RunState :=
  if st.life.is_terminated then Except.ok st else run_iter steps st

/-- The input union `str | Message | list[Message]` accepted by `Agent.arun`;
the `case _: raise TypeError` arm is unreachable for well-typed inputs. -/
inductive RunInput where
  | str (s : String)
  | msg (m : Message)
  | msgs (l : List Message)

/-- `Agent._handle_input`: normalize the input to a message list (a bare
string becomes one user message, drawing a fresh uuid). -/
def Agent.handle_input (input : RunInput) (fresh : Nat) : List Message × Nat :=
  match input with
  | RunInput.str s =>
      ([{ role := Role.user, content_type := CType.text, text := MText.str s,
          tool_calls := [], id := toString fresh }], fresh + 1)
  | RunInput.msg m => ([m], fresh)
  | RunInput.msgs l => (l, fresh)

/-- `Agent._pre_configure`: enqueue one system message whose text is the
Jinja2-rendered template (rendering is external to the core; the rendered
string is a parameter here). -/
def Agent.pre_configure (system_text : String) (ctx : Context) (fresh : Nat) : Context × Nat :=
  (ctx.add_message
    [{ role := Role.system, content_type := CType.text, text := MText.str system_text,
       tool_calls := [], id := toString fresh }], fresh + 1)

/-- The opening of `Agent.arun` (specialized to `output_schema = None`; the
structured-output re-query is outside the claims): enter the lifecycle scope
(registering the `terminate` tool), enqueue the rendered system message, and
normalize and enqueue the caller's input, giving the loop's starting state.
The result of the run carries the final lifecycle so its state at scope exit
is observable. -/
def Agent.seed (system_text : String) (input : RunInput) (ctx : Context) : RunState :=
  let entered := ctx.enter_lifecycle
  let pre := Agent.pre_configure system_text entered.1 0
  let seeded := Agent.handle_input input pre.2
  { ctx := pre.1.add_message seeded.1, life := entered.2, requests := 0, fresh := seeded.2 }

/-- The body of `Agent.arun` around the seeded loop: on every exit path of the
`with` block — loop completion or an escaping error — the context manager's
`finally` force-terminates the lifecycle, and only then does the normal path
extract the output. -/
def Agent.arun (steps : Nat → ModelStep) (system_text : String) (input : RunInput)
    (ctx : Context) : Except (String × Lifecycle) (Option String × Context × Lifecycle) :=
  match run_loop steps (Agent.seed system_text input ctx) with
  | Except.error (e, st) => Except.error (e, st.life.terminate)
  | Except.ok st => Except.ok (Agent.handle_output_plain st.ctx, st.ctx, st.life.terminate)

/-- The two operations a run can apply to its `_Lifecycle`. -/
inductive LifeOp where
  | advance
  | term

/-- Apply one lifecycle operation. -/
def apply_op (l : Lifecycle) : LifeOp → Lifecycle
  | LifeOp.advance => l.move_forward
  | LifeOp.term => l.terminate

/-- Apply a sequence of lifecycle operations. -/
def apply_ops (l : Lifecycle) (ops : List LifeOp) : Lifecycle :=
  ops.foldl apply_op l

/-- The number of model requests issued by a finished or aborted loop. -/
def loop_requests (r : Except (String × RunState) RunState) : Nat :=
  match r with
  | Except.ok st => st.requests
  | Except.error p => p.2.requests

/-- A scripted provider that never invokes the injected termination tool: no
reply ever carries a tool call named `terminate`. -/
def no_terminate_call (steps : Nat → ModelStep) : Prop :=
  ∀ k content tcs, steps k = ModelStep.reply content tcs →
    ∀ tc ∈ tcs, tc.name ≠ "terminate"

/-- The text the run records for one tool call, as the amended claim states
it: not-registered and raised-exception reports, the returned text when it is
non-empty, and the default success text when the tool returns nothing or an
empty string. -/
def claim_tool_text (ctx : Context) (tc : ToolCallParam) : String :=
  match ctx.get_tool tc.function.name with
  | Option.none => "Tool `" ++ tc.function.name ++ "` is not exist."
  | Option.some tool =>
    match tool.function tc.function.arguments with
    | ToolRun.raises e => "Error executing tool " ++ tc.function.name ++ ": " ++ e ++ "."
    | ToolRun.returns (Option.some s) => if s = "" then "Tool execution success." else s
    | ToolRun.returns Option.none => "Tool execution success."
    | ToolRun.term => "Tool execution success."

/-- A minimal concrete tool annotation, for concrete test contexts. -/
def sample_anno (n : String) : ToolAnno :=
  { function := { name := n, description := "", strict := true,
                  parameters := { properties := [], required := [] } } }

/-- A concrete registered tool whose invocation returns the given result. -/
def sample_tool (n : String) (r : Option String) : ToolWrapper :=
  { name := n, description := "", anno := sample_anno n,
    function := fun _ => ToolRun.returns r }

/-- Two tools registered in the order `a`, `b`. -/
def ctx_ab : Context :=
  (Context.add_tool Context.build_context [sample_tool "a" Option.none, sample_tool "b" Option.none]).1

/-- The same two tools registered in the order `b`, `a`. -/
def ctx_ba : Context :=
  (Context.add_tool Context.build_context [sample_tool "b" Option.none, sample_tool "a" Option.none]).1

/-- A tool that explicitly returns the empty string. -/
def echo_empty_tool : ToolWrapper := sample_tool "echo" (Option.some "")

/-- An assistant message carrying one call to `echo` (which will return the
empty string). -/
def echo_call_msg : Message :=
  { role := Role.assistant, content_type := CType.text, text := MText.none,
    tool_calls := [{ id := "call1", function := { name := "echo", arguments := "{}" } }],
    id := "a1" }

/-- A context whose last recording requests one `echo` tool call. -/
def echo_ctx : Context :=
  Context.add_message (Context.add_tool Context.build_context [echo_empty_tool]).1 [echo_call_msg]

/-- A documented function with a required `int` parameter and a nullable
`int | None` parameter. -/
def nullable_param_func : PyFunc :=
  { name := "f"
    doc := Option.some
      { description := Option.some "Adds."
        params :=
          [{ arg_name := "a", type_name := Option.some "int", description := Option.none },
           { arg_name := "b", type_name := Option.some "int | None", description := Option.none }] }
    behavior := fun _ => ToolRun.returns Option.none }

/-- Recordings whose latest assistant message has no text while an earlier
assistant message has non-empty text. -/
def stale_answer_ctx : Context :=
  Context.add_message Context.build_context
    [{ role := Role.assistant, content_type := CType.text, text := MText.str "hello",
       tool_calls := [], id := "a1" },
     { role := Role.assistant, content_type := CType.text, text := MText.none,
       tool_calls := [{ id := "c1", function := { name := "t", arguments := "{}" } }],
       id := "a2" }]

/-- A provider that always answers with plain text and no tool calls. -/
def quiet_steps : Nat → ModelStep :=
  fun _ => ModelStep.reply (Option.some "four") []

/-- A provider whose every reply invokes the injected termination tool. -/
def terminating_steps : Nat → ModelStep :=
  fun _ => ModelStep.reply (Option.some "done")
    [{ id := "tc1", name := "terminate", arguments := "{}" }]

/-- A provider that rejects every request. -/
def reject_steps : Nat → ModelStep :=
  fun _ => ModelStep.reject "BadRequestError"

/-- A string with a non-empty second summand is non-empty. -/
theorem append_ne_empty (a b : String) (h : b ≠ "") : a ++ b ≠ "" := by
  intro hc
  apply h
  have hlen := congrArg String.length hc
  rw [String.length_append] at hlen
  have h0 : String.length "" = 0 := rfl
  have hb : b.length = 0 := by omega
  have hdata : b.data = [] := List.length_eq_zero.mp hb
  exact String.ext (by rw [hdata])

/-- A successful batch registration appends exactly the batch, in order, to
the registry. -/
theorem add_tool_ok_tools (l : List ToolWrapper) (c : Context)
    (h : (Context.add_tool c l).2 = Option.none) :
    (Context.add_tool c l).1.tools = c.tools ++ l.map (fun t => (t.name, t)) := by
  induction l generalizing c with
  | nil => simp [Context.add_tool]
  | cons t rest ih =>
      by_cases hc : c.tools.any (fun q => q.1 = t.name)
      · simp [Context.add_tool, hc] at h
      · have e : Context.add_tool c (t :: rest) =
            Context.add_tool { c with tools := c.tools ++ [(t.name, t)] } rest := by
          simp [Context.add_tool, hc]
        rw [e] at h ⊢
        rw [ih _ h]
        simp

/-- After a successful batch registration, each registered tool is found back
under its name. -/
theorem add_tool_ok_get (l : List ToolWrapper) (c : Context)
    (h : (Context.add_tool c l).2 = Option.none) :
    ∀ p ∈ l, Context.get_tool (Context.add_tool c l).1 p.name = Option.some p := by
  induction l generalizing c with
  | nil => intro p hp; cases hp
  | cons t rest ih =>
      intro p hp
      by_cases hc : c.tools.any (fun q => q.1 = t.name)
      · simp [Context.add_tool, hc] at h
      · have e : Context.add_tool c (t :: rest) =
            Context.add_tool { c with tools := c.tools ++ [(t.name, t)] } rest := by
          simp [Context.add_tool, hc]
        rw [e] at h ⊢
        rcases List.mem_cons.mp hp with rfl | hp'
        · have htools := add_tool_ok_tools rest _ h
          unfold Context.get_tool
          rw [htools]
          have h1 : (c.tools ++ [(p.name, p)]).find? (fun q => q.1 = p.name) =
              Option.some (p.name, p) := by
            rw [List.find?_append]
            have hnone : c.tools.find? (fun q => q.1 = p.name) = Option.none := by
              rw [List.find?_eq_none]
              intro x hx hpx
              exact hc (List.any_eq_true.mpr ⟨x, hx, hpx⟩)
            rw [hnone]
            simp
          rw [List.find?_append, h1]
          rfl
        · exact ih _ h p hp'

/-- A batch that collides after a successful prefix stops at the collision,
keeping the prefix registered. -/
theorem add_tool_collision (pre : List ToolWrapper) (c : Context) (t : ToolWrapper)
    (post : List ToolWrapper)
    (h1 : (Context.add_tool c pre).2 = Option.none)
    (h2 : ((Context.add_tool c pre).1).tools.any (fun q => q.1 = t.name) = true) :
    Context.add_tool c (pre ++ t :: post) =
      ((Context.add_tool c pre).1, Option.some ("Tool `" ++ t.name ++ "` already exists")) := by
  induction pre generalizing c with
  | nil =>
      have hc : c.tools.any (fun q => q.1 = t.name) = true := h2
      simp [Context.add_tool, hc]
  | cons t0 rest ih =>
      by_cases hc : c.tools.any (fun q => q.1 = t0.name)
      · simp [Context.add_tool, hc] at h1
      · have e : ∀ l, Context.add_tool c (t0 :: l) =
            Context.add_tool { c with tools := c.tools ++ [(t0.name, t0)] } l := by
          intro l
          simp [Context.add_tool, hc]

        rw [e] at h1 h2
        simp only [List.cons_append, e]
        exact ih _ h1 h2

/-- C10: registering a batch of tools is not atomic — when a later tool's
name collides with an existing registration the call raises, yet every
non-colliding tool earlier in the batch stays registered, so the registry is
changed even though the operation failed. -/
theorem C10_batch_registration_not_atomic (ctx : Context) (pre : List ToolWrapper)
    (t : ToolWrapper) (post : List ToolWrapper)
    (h1 : (Context.add_tool ctx pre).2 = Option.none)
    (h2 : ((Context.add_tool ctx pre).1).tools.any (fun q => q.1 = t.name) = true) :
    (Context.add_tool ctx (pre ++ t :: post)).1 = (Context.add_tool ctx pre).1 ∧
      (Context.add_tool ctx (pre ++ t :: post)).2 =
        Option.some ("Tool `" ++ t.name ++ "` already exists") ∧
      ∀ p ∈ pre,
        Context.get_tool (Context.add_tool ctx (pre ++ t :: post)).1 p.name = Option.some p := by
  have hcol := add_tool_collision pre ctx t post h1 h2
  refine ⟨by rw [hcol], by rw [hcol], ?_⟩
  intro p hp
  rw [hcol]
  exact add_tool_ok_get pre ctx h1 p hp

/-- Witness for C10 at a concrete input: register `a`, then a batch whose
second member collides with it; the first member survives the raised error. -/
theorem C10_batch_registration_not_atomic_witness :
    ((Context.add_tool Context.build_context [sample_tool "a" Option.none]).2 = Option.none) ∧
      (((Context.add_tool Context.build_context [sample_tool "a" Option.none]).1).tools.any
        (fun q => q.1 = (sample_tool "a" (Option.some "x")).name) = true) ∧
      ((Context.add_tool Context.build_context
          ([sample_tool "a" Option.none] ++ sample_tool "a" (Option.some "x") :: [])).2 =
        Option.some ("Tool `" ++ (sample_tool "a" (Option.some "x")).name ++ "` already exists")) ∧
      (Context.get_tool
          (Context.add_tool Context.build_context
            ([sample_tool "a" Option.none] ++ sample_tool "a" (Option.some "x") :: [])).1
          (sample_tool "a" Option.none).name = Option.some (sample_tool "a" Option.none)) := by
  refine ⟨rfl, rfl, ?_, ?_⟩
  · exact (C10_batch_registration_not_atomic Context.build_context [sample_tool "a" Option.none]
      (sample_tool "a" (Option.some "x")) [] rfl rfl).2.1
  · exact (C10_batch_registration_not_atomic Context.build_context [sample_tool "a" Option.none]
      (sample_tool "a" (Option.some "x")) [] rfl rfl).2.2 _ (List.mem_singleton.mpr rfl)

/-- C8: serializing the history is idempotent and mutation-free — the
serialized form of an unchanged context is the same on a repeated call, and
the stored system messages, recordings and tools are untouched; the returned
snapshots are copies independent of the live history. -/
theorem C8_history_serialization_idempotent (ctx : Context) :
    (Context.build_message ctx).2 = ctx ∧
      (Context.build_message ((Context.build_message ctx).2)).1 = (Context.build_message ctx).1 ∧
      Context.list_message ((Context.build_message ctx).2) = Context.list_message ctx ∧
      ((Context.build_message ctx).2).system_messages = ctx.system_messages ∧
      ((Context.build_message ctx).2).recordings = ctx.recordings ∧
      ((Context.build_message ctx).2).tools = ctx.tools :=
  ⟨rfl, rfl, rfl, rfl, rfl, rfl⟩

/-- A message whose text is absent serializes to the text-required error,
whichever role it has. -/
theorem serializeOne_none_text (m : Message) (h : m.text = MText.none) :
    serializeOne m = Except.error "Text is required for text content type" := by
  rcases m with ⟨role, ct, text, tcs, id⟩
  cases ct
  cases h
  cases role <;> rfl

/-- A message with present text always serializes successfully inside
`build_message` (tool-role messages get their own id as the call id). -/
theorem serializeOne_some_text (m : Message) (h : m.text ≠ MText.none) :
    ∃ pm m', serializeOne m = Except.ok (pm, m') := by
  rcases m with ⟨role, ct, text, tcs, id⟩
  cases ct
  cases text with
  | none => exact absurd rfl h
  | str s => cases role <;> exact ⟨_, _, rfl⟩
  | list l => cases role <;> exact ⟨_, _, rfl⟩

/-- Serializing any message list containing an absent-text message fails with
the text-required error. -/
theorem serializeAll_none_text (l : List Message) (m : Message) (hm : m ∈ l)
    (ht : m.text = MText.none) :
    serializeAll l = Except.error "Text is required for text content type" := by
  induction l with
  | nil => cases hm
  | cons a rest ih =>
      unfold serializeAll
      rcases List.mem_cons.mp hm with rfl | hm'
      · rw [serializeOne_none_text m ht]
        rfl
      · by_cases hta : a.text = MText.none
        · rw [serializeOne_none_text a hta]
          rfl
        · obtain ⟨pm, m', hok⟩ := serializeOne_some_text a hta
          rw [hok, ih hm']
          rfl

/-- C9: a text message whose text field is absent cannot be serialized for
transmission, for every role; an assistant message built from a completion
with null content (even one that carries tool calls) has absent text; and a
context whose history contains such a message fails to serialize instead of
producing a request. -/
theorem C9_null_text_fails_serialization :
    (∀ (m : Message) (tid : Option String), m.text = MText.none →
        m.to_openai_message tid = Except.error "Text is required for text content type") ∧
      (∀ (c : ChatCompletion) (fresh : String) (msg : Message) (first : CompletionMessage)
          (rest : List CompletionMessage), c.choices = first :: rest →
          first.content = Option.none →
          Message.from_completion c fresh = Except.ok msg →
          msg.text = MText.none ∧
            msg.tool_calls =
              (first.tool_calls.getD []).map (fun tc =>
                { id := tc.id, function := { name := tc.name, arguments := tc.arguments } })) ∧
      (∀ (ctx : Context) (m : Message), m ∈ ctx.system_messages ++ ctx.recordings →
          m.text = MText.none →
          (Context.build_message ctx).1 =
            Except.error "Text is required for text content type") := by
  refine ⟨?_, ?_, ?_⟩
  · intro m tid h
    rcases m with ⟨role, ct, text, tcs, id⟩
    cases ct
    cases h
    cases role <;> cases tid <;> rfl
  · intro c fresh msg first rest hch hcont hok
    unfold Message.from_completion at hok
    rw [hch] at hok
    injection hok with hok
    rw [← hok, hcont]
    exact ⟨rfl, rfl⟩
  · intro ctx m hm ht
    exact serializeAll_none_text _ m hm ht

/-- Witness for C9 at concrete inputs: a plain assistant message with absent
text fails to serialize; a completion with null content and one tool call
yields an absent-text message; a context recording such a message fails to
serialize. -/
theorem C9_null_text_fails_serialization_witness :
    (echo_call_msg.to_openai_message Option.none =
        Except.error "Text is required for text content type") ∧
      (Message.from_completion
          { choices := [{ content := Option.none,
                          tool_calls := Option.some [{ id := "c9", name := "t", arguments := "{}" }] }] }
          "u1" =
        Except.ok
          { role := Role.assistant, content_type := CType.text, text := MText.none,
            tool_calls := [{ id := "c9", function := { name := "t", arguments := "{}" } }],
            id := "u1" } ∧
        (Message.mk Role.assistant CType.text MText.none
            [{ id := "c9", function := { name := "t", arguments := "{}" } }] "u1").text =
          MText.none) ∧
      ((Context.build_message stale_answer_ctx).1 =
        Except.error "Text is required for text content type") := by
  refine ⟨?_, ⟨rfl, ?_⟩, ?_⟩
  · exact C9_null_text_fails_serialization.1 echo_call_msg Option.none rfl
  · exact (C9_null_text_fails_serialization.2.1
      { choices := [{ content := Option.none,
                      tool_calls := Option.some [{ id := "c9", name := "t", arguments := "{}" }] }] }
      "u1"
      { role := Role.assistant, content_type := CType.text, text := MText.none,
        tool_calls := [{ id := "c9", function := { name := "t", arguments := "{}" } }],
        id := "u1" }
      { content := Option.none,
        tool_calls := Option.some [{ id := "c9", name := "t", arguments := "{}" }] }
      [] rfl rfl rfl).1
  · exact C9_null_text_fails_serialization.2.2 stale_answer_ctx
      { role := Role.assistant, content_type := CType.text, text := MText.none,
        tool_calls := [{ id := "c1", function := { name := "t", arguments := "{}" } }],
        id := "a2" }
      (by decide)
      rfl

/-- C2 (code bug, evaluated at the failing input): `wrap` tests the substring
`"None"` against the *mapped* JSON type name (here `"integer"`), never
against the declared type, so the parameter declared `int | None` is placed
in `required` even though its declared type permits absence — and the
declared type does contain `"None"` while the mapped one does not. -/
theorem C2_nullable_param_still_required :
    (wrap nullable_param_func).map (fun t => t.anno.function.parameters.required) =
        Except.ok ["a", "b"] ∧
      TYPE_MAPPING "int | None" = Option.some "integer" ∧
      strContains "int | None" "None" = true ∧
      strContains "integer" "None" = false := by
  refine ⟨rfl, rfl, by decide, by decide⟩

/-- C7 (counterexample): the same two tools registered in the two possible
orders. `list_tool` is sorted by name either way, but the annotation list
actually transmitted to the provider (`list_tool_annotation`, used by
`Model.aresponse`) follows registration order and differs between the two. -/
theorem C7_provider_order_counterexample :
    Context.list_tool_anno ctx_ab = [sample_anno "a", sample_anno "b"] ∧
      Context.list_tool_anno ctx_ba = [sample_anno "b", sample_anno "a"] ∧
      Model.build_request ctx_ab =
        Except.ok { messages := [], tools := [sample_anno "a", sample_anno "b"] } ∧
      Model.build_request ctx_ba =
        Except.ok { messages := [], tools := [sample_anno "b", sample_anno "a"] } ∧
      ([sample_anno "a", sample_anno "b"] : List ToolAnno) ≠
        [sample_anno "b", sample_anno "a"] := by
  exact ⟨rfl, rfl, rfl, rfl, by decide⟩

/-- C7 (amended): `list_tool()` does return the tools sorted by name, and its
name sequence is registration-order independent; but the schema list sent to
the provider is the registry-order annotation list, which does depend on
registration order. -/
theorem C7_list_tool_sorted_amended :
    (∀ ctx : Context, ((Context.list_tool ctx).map ToolWrapper.name).Pairwise (· ≤ ·)) ∧
      (∀ ctx : Context, ((Context.list_tool ctx).map ToolWrapper.name).Perm
        ((ctx.tools.map Prod.snd).map ToolWrapper.name)) ∧
      (∀ ctx1 ctx2 : Context, ctx1.tools.Perm ctx2.tools →
        (Context.list_tool ctx1).map ToolWrapper.name =
          (Context.list_tool ctx2).map ToolWrapper.name) ∧
      (∀ (ctx : Context) (req : ProviderRequest), Model.build_request ctx = Except.ok req →
        req.tools = ctx.tools.map (fun p => p.2.anno)) := by
  have hsorted : ∀ ctx : Context,
      ((Context.list_tool ctx).map ToolWrapper.name).Pairwise (· ≤ ·) := by
    intro ctx
    have hp := @List.sorted_mergeSort ToolWrapper
      (fun a b : ToolWrapper => a.name ≤ b.name)
      (fun a b c h1 h2 =>
        decide_eq_true (le_trans (of_decide_eq_true h1) (of_decide_eq_true h2)))
      (fun a b => by
        rcases le_total a.name b.name with h | h
        · exact Bool.or_eq_true_iff.mpr (Or.inl (decide_eq_true h))
        · exact Bool.or_eq_true_iff.mpr (Or.inr (decide_eq_true h)))
      (ctx.tools.map Prod.snd)
    rw [List.pairwise_map]
    exact hp.imp (fun h => of_decide_eq_true h)
  have hperm : ∀ ctx : Context,
      ((Context.list_tool ctx).map ToolWrapper.name).Perm
        ((ctx.tools.map Prod.snd).map ToolWrapper.name) := by
    intro ctx
    exact (List.mergeSort_perm (ctx.tools.map Prod.snd) _).map ToolWrapper.name
  refine ⟨hsorted, hperm, ?_, ?_⟩
  · intro ctx1 ctx2 hp
    have h12 : ((Context.list_tool ctx1).map ToolWrapper.name).Perm
        ((Context.list_tool ctx2).map ToolWrapper.name) :=
      ((hperm ctx1).trans (((hp.map Prod.snd).map ToolWrapper.name))).trans (hperm ctx2).symm
    exact List.eq_of_perm_of_sorted h12 (hsorted ctx1) (hsorted ctx2)
  · intro ctx req h
    unfold Model.build_request at h
    cases hm : (ctx.build_message).1 with
    | error e => rw [hm] at h; exact absurd h (by simp)
    | ok msgs =>
        rw [hm] at h
        injection h with h
        rw [← h]
        rfl

/-- Witness for C7's amended claim at concrete inputs: the two registration
orders of the same tools produce the same sorted `list_tool` name sequence,
and the transmitted schema list equals the registry-order annotation list. -/
theorem C7_list_tool_sorted_amended_witness :
    (((Context.list_tool ctx_ab).map ToolWrapper.name).Pairwise (· ≤ ·)) ∧
      ((Context.list_tool ctx_ab).map ToolWrapper.name =
        (Context.list_tool ctx_ba).map ToolWrapper.name) ∧
      ({ messages := [], tools := Context.list_tool_anno ctx_ab } : ProviderRequest).tools =
        ctx_ab.tools.map (fun p => p.2.anno) := by
  refine ⟨C7_list_tool_sorted_amended.1 ctx_ab, ?_, ?_⟩
  · apply C7_list_tool_sorted_amended.2.2.1 ctx_ab ctx_ba
    have hab : ctx_ab.tools =
        [("a", sample_tool "a" Option.none), ("b", sample_tool "b" Option.none)] := rfl
    have hba : ctx_ba.tools =
        [("b", sample_tool "b" Option.none), ("a", sample_tool "a" Option.none)] := rfl
    rw [hab, hba]
    exact List.Perm.swap _ _ _
  · exact C7_list_tool_sorted_amended.2.2.2 ctx_ab
      { messages := [], tools := Context.list_tool_anno ctx_ab } rfl

/-- `claim_tool_text` only reads the tool registry. -/
theorem claim_tool_text_congr (ctx ctx' : Context) (tc : ToolCallParam)
    (h : ctx.tools = ctx'.tools) : claim_tool_text ctx tc = claim_tool_text ctx' tc := by
  unfold claim_tool_text Context.get_tool
  rw [h]

/-- `add_message` never touches the tool registry. -/
theorem add_message_tools (msgs : List Message) (ctx : Context) :
    (Context.add_message ctx msgs).tools = ctx.tools := by
  induction msgs generalizing ctx with
  | nil => rfl
  | cons msg rest ih =>
      unfold Context.add_message at ih ⊢
      rw [List.foldl_cons]
      rw [ih]
      by_cases h : msg.role = Role.system <;> simp [h]

/-- Appending one non-system message appends it to the recordings. -/
theorem add_message_nonsystem (ctx : Context) (m : Message) (h : m.role ≠ Role.system) :
    Context.add_message ctx [m] = { ctx with recordings := ctx.recordings ++ [m] } := by
  unfold Context.add_message
  simp [h]

/-- The tool message recorded for one call is exactly the one the amended
claim describes: role `tool`, correlated by the call id, with the
not-exist/error/result-or-default text. -/
theorem run_one_tool_call_msg (ctx : Context) (life : Lifecycle) (tc : ToolCallParam) :
    (run_one_tool_call ctx life tc).1 =
      { role := Role.tool, content_type := CType.text,
        text := MText.str (claim_tool_text ctx tc), tool_calls := [], id := tc.id } := by
  unfold run_one_tool_call claim_tool_text
  dsimp only
  cases hg : ctx.get_tool tc.function.name with
  | none =>
      have hne : ("Tool `" ++ tc.function.name) ++ "` is not exist." ≠ "" :=
        append_ne_empty _ _ (by decide)
      simp [py_or, hne]
  | some tool =>
      dsimp only
      cases hr : tool.function tc.function.arguments with
      | returns r =>
          cases r with
          | none => rfl
          | some s => simp [py_or]
      | raises e =>
          have hne : ((("Error executing tool " ++ tc.function.name) ++ ": ") ++ e) ++ "." ≠ "" :=
            append_ne_empty _ _ (by decide)
          simp [py_or, hne]
      | term => rfl

/-- Dispatching a list of tool calls appends exactly one tool message per
call, in call order, and leaves the system messages and the registry
untouched. -/
theorem dispatch_foldl_recs (tcs : List ToolCallParam) (p : Context × Lifecycle) :
    (tcs.foldl dispatch_step p).1.recordings =
        p.1.recordings ++ tcs.map (fun tc =>
          ({ role := Role.tool, content_type := CType.text,
             text := MText.str (claim_tool_text p.1 tc), tool_calls := [], id := tc.id } : Message)) ∧
      (tcs.foldl dispatch_step p).1.system_messages = p.1.system_messages ∧
      (tcs.foldl dispatch_step p).1.tools = p.1.tools := by
  induction tcs generalizing p with
  | nil => exact ⟨by simp, rfl, rfl⟩
  | cons tc rest ih =>
      have hmsg := run_one_tool_call_msg p.1 p.2 tc
      have hrole : (run_one_tool_call p.1 p.2 tc).1.role ≠ Role.system := by
        rw [hmsg]
        intro hcon
        cases hcon
      have hctx : (dispatch_step p tc).1 =
          { p.1 with recordings := p.1.recordings ++ [(run_one_tool_call p.1 p.2 tc).1] } := by
        unfold dispatch_step
        exact add_message_nonsystem p.1 _ hrole
      obtain ⟨ih1, ih2, ih3⟩ := ih (dispatch_step p tc)
      have htools : (dispatch_step p tc).1.tools = p.1.tools := by rw [hctx]
      have hmapeq : rest.map (fun tc' =>
            ({ role := Role.tool, content_type := CType.text,
               text := MText.str (claim_tool_text (dispatch_step p tc).1 tc'),
               tool_calls := [], id := tc'.id } : Message)) =
          rest.map (fun tc' =>
            ({ role := Role.tool, content_type := CType.text,
               text := MText.str (claim_tool_text p.1 tc'),
               tool_calls := [], id := tc'.id } : Message)) :=
        List.map_congr_left (fun a _ => by
          rw [claim_tool_text_congr (dispatch_step p tc).1 p.1 a htools])
      refine ⟨?_, ?_, ?_⟩
      · rw [List.foldl_cons, ih1, hmapeq, hctx, List.map_cons, hmsg]
        simp [List.append_assoc]
      · rw [List.foldl_cons, ih2, hctx]
      · rw [List.foldl_cons, ih3, htools]

/-- C1 (counterexample): a registered tool that returns the empty string.
The run appends one correlated tool message, but its text is the default
`"Tool execution success."`, not the tool's returned text `""` — the claim's
"otherwise the message carries the tool's returned text" fails here. -/
theorem C1_empty_result_counterexample :
    (Agent.handle_tool_calls echo_ctx Lifecycle.init).map (fun out => out.1.recordings) =
        Except.ok [echo_call_msg,
          { role := Role.tool, content_type := CType.text,
            text := MText.str "Tool execution success.", tool_calls := [], id := "call1" }] ∧
      echo_empty_tool.function "{}" = ToolRun.returns (Option.some "") ∧
      ("Tool execution success." : String) ≠ "" := by
  exact ⟨rfl, rfl, by decide⟩

/-- C1 (amended): for every tool call of the last recorded message, processed
in provider order, the run appends exactly one tool-role message correlated
by the call's id and never aborts; an unregistered name yields the not-exist
report, a raised exception yields the formatted error description with the
tool name, and otherwise the message carries the tool's returned text except
that an absent or empty result is replaced by `"Tool execution success."`. -/
theorem C1_tool_dispatch_amended (ctx : Context) (life : Lifecycle) (m : Message)
    (h : ctx.get_last_message = Except.ok m) :
    ∃ life2, Agent.handle_tool_calls ctx life = Except.ok
      ({ system_messages := ctx.system_messages,
         recordings := ctx.recordings ++ m.tool_calls.map (fun tc =>
           { role := Role.tool, content_type := CType.text,
             text := MText.str (claim_tool_text ctx tc), tool_calls := [], id := tc.id }),
         tools := ctx.tools }, life2) := by
  obtain ⟨h1, h2, h3⟩ := dispatch_foldl_recs m.tool_calls (ctx, life)
  refine ⟨(m.tool_calls.foldl dispatch_step (ctx, life)).2, ?_⟩
  unfold Agent.handle_tool_calls
  rw [h]
  have hctx : (m.tool_calls.foldl dispatch_step (ctx, life)).1 =
      { system_messages := ctx.system_messages,
        recordings := ctx.recordings ++ m.tool_calls.map (fun tc =>
          { role := Role.tool, content_type := CType.text,
            text := MText.str (claim_tool_text ctx tc), tool_calls := [], id := tc.id }),
        tools := ctx.tools } := by
    rcases hf : (m.tool_calls.foldl dispatch_step (ctx, life)).1 with ⟨s, r, t⟩
    rw [hf] at h1 h2 h3
    dsimp only at h1 h2 h3
    subst h1
    subst h2
    subst h3
    rfl
  rw [← hctx]

/-- Witness for C1's amended claim at `echo_ctx`: the last recorded message
requests one `echo` call and dispatch appends exactly the described tool
message. -/
theorem C1_tool_dispatch_amended_witness :
    echo_ctx.get_last_message = Except.ok echo_call_msg ∧
      ∃ life2, Agent.handle_tool_calls echo_ctx Lifecycle.init = Except.ok
        ({ system_messages := echo_ctx.system_messages,
           recordings := echo_ctx.recordings ++ echo_call_msg.tool_calls.map (fun tc =>
             { role := Role.tool, content_type := CType.text,
               text := MText.str (claim_tool_text echo_ctx tc), tool_calls := [], id := tc.id }),
           tools := echo_ctx.tools }, life2) :=
  ⟨rfl, C1_tool_dispatch_amended echo_ctx Lifecycle.init echo_call_msg rfl⟩

/-- C3 (counterexample): the recordings hold an assistant message with text
`"hello"` followed by a tool-call-only assistant message with absent text.
The claim demands the run use `"hello"`; the code stops at the most recent
assistant message regardless of its text and returns no output. -/
theorem C3_stale_answer_counterexample :
    Agent.handle_output_plain stale_answer_ctx = Option.none ∧
      spec_output_plain stale_answer_ctx = Option.some "hello" ∧
      (Option.some "hello" : Option String) ≠ Option.none := by
  exact ⟨rfl, rfl, by decide⟩

/-- C3 (amended): output extraction scans the recordings in reverse and stops
at the most recent assistant-role message regardless of its text: its text
(joined with newlines when a block list, the empty string included) is the
result, and when its text is absent — or when no assistant message exists at
all — the run returns no output even if an earlier assistant message carries
text. -/
theorem C3_output_extraction_amended :
    (∀ (ctx : Context) (l1 l2 : List Message) (a : Message),
        ctx.recordings = l1 ++ a :: l2 → a.role = Role.assistant →
        (∀ m2 ∈ l2, m2.role ≠ Role.assistant) →
        Agent.handle_output_plain ctx = pyFormat a.text) ∧
      (∀ ctx : Context, (∀ m2 ∈ ctx.recordings, m2.role ≠ Role.assistant) →
        Agent.handle_output_plain ctx = Option.none) := by
  constructor
  · intro ctx l1 l2 a hrec hrole hl2
    unfold Agent.handle_output_plain
    rw [hrec, List.reverse_append, List.reverse_cons, List.append_assoc,
      List.find?_append]
    have h2 : l2.reverse.find? (fun msg => msg.role == Role.assistant) = Option.none := by
      rw [List.find?_eq_none]
      intro x hx
      simpa using hl2 x (List.mem_reverse.mp hx)
    rw [h2]
    have ha : List.find? (fun msg => msg.role == Role.assistant) ([a] ++ l1.reverse) =
        Option.some a := by
      rw [List.find?_append]
      have : List.find? (fun msg => msg.role == Role.assistant) [a] = Option.some a := by
        simp [hrole]
      rw [this]
      rfl
    rw [ha]
    rfl
  · intro ctx h
    unfold Agent.handle_output_plain
    have hn : ctx.recordings.reverse.find? (fun msg => msg.role == Role.assistant) =
        Option.none := by
      rw [List.find?_eq_none]
      intro x hx
      simpa using h x (List.mem_reverse.mp hx)
    rw [hn]

/-- Witness for C3's amended claim: at `stale_answer_ctx` the most recent
assistant message has absent text, so extraction yields no output; on an
empty history it also yields no output. -/
theorem C3_output_extraction_amended_witness :
    (stale_answer_ctx.recordings =
        [{ role := Role.assistant, content_type := CType.text, text := MText.str "hello",
           tool_calls := [], id := "a1" }] ++
          { role := Role.assistant, content_type := CType.text, text := MText.none,
            tool_calls := [{ id := "c1", function := { name := "t", arguments := "{}" } }],
            id := "a2" } :: [] ∧
      Agent.handle_output_plain stale_answer_ctx =
        pyFormat (MText.none)) ∧
      Agent.handle_output_plain Context.build_context = Option.none := by
  refine ⟨⟨rfl, ?_⟩, ?_⟩
  · exact C3_output_extraction_amended.1 stale_answer_ctx _ [] _ rfl rfl (by simp)
  · exact C3_output_extraction_amended.2 Context.build_context (by simp [Context.build_context])

/-- `move_forward` preserves an already-terminated lifecycle. -/
theorem move_forward_keeps_term (l : Lifecycle) (h : l.is_terminated = true) :
    (l.move_forward).is_terminated = true := by
  simp only [Lifecycle.move_forward]
  split
  · rfl
  · exact h

/-- After any `move_forward`, a step counter at or past the budget implies the
terminated flag is set. -/
theorem move_forward_inv (l : Lifecycle)
    (h : (l.move_forward).current_step ≥ (l.move_forward).max_steps) :
    (l.move_forward).is_terminated = true := by
  by_cases hc : l.current_step + 1 ≥ l.max_steps
  · simp only [Lifecycle.move_forward]
    dsimp only
    rw [if_pos hc]
    rfl
  · simp only [Lifecycle.move_forward] at h
    dsimp only at h
    rw [if_neg hc] at h
    exact absurd h hc

/-- `dispatch_step` never touches the registry. -/
theorem dispatch_step_tools (p : Context × Lifecycle) (a : ToolCallParam) :
    (dispatch_step p a).1.tools = p.1.tools := by
  unfold dispatch_step
  exact add_message_tools _ _

/-- `get_tool` only reads the registry. -/
theorem get_tool_congr (ctx ctx' : Context) (h : ctx.tools = ctx'.tools) (n : String) :
    Context.get_tool ctx n = Context.get_tool ctx' n := by
  unfold Context.get_tool
  rw [h]

/-- If some dispatched call resolves to a registered tool whose invocation is
the termination effect, the lifecycle after the whole dispatch is
terminated. -/
theorem dispatch_foldl_term (tcs : List ToolCallParam) (p : Context × Lifecycle)
    (tc : ToolCallParam) (hmem : tc ∈ tcs) (tw : ToolWrapper)
    (hg : Context.get_tool p.1 tc.function.name = Option.some tw)
    (ht : tw.function tc.function.arguments = ToolRun.term) :
    ((tcs.foldl dispatch_step p).2).is_terminated = true := by
  induction tcs generalizing p with
  | nil => cases hmem
  | cons a rest ih =>
      rw [List.foldl_cons]
      rcases List.mem_cons.mp hmem with rfl | hmem'
      · have h2 : (dispatch_step p tc).2 = p.2.terminate := by
          unfold dispatch_step run_one_tool_call
          dsimp only
          rw [hg]
          dsimp only
          rw [ht]
        rcases dispatch_foldl_life rest (dispatch_step p tc) with hl | hl <;> rw [hl, h2] <;> rfl
      · exact ih (dispatch_step p a) hmem'
          (by rw [get_tool_congr (dispatch_step p a).1 p.1 (dispatch_step_tools p a)]; exact hg)

/-- Entered below the step budget, the loop issues at most
`max_steps - current_step` further model requests, whether it finishes or an
error escapes. -/
theorem run_iter_requests (steps : Nat → ModelStep) (st : RunState)
    (h : st.life.current_step < st.life.max_steps) :
    loop_requests (run_iter steps st) ≤
      st.requests + (st.life.max_steps - st.life.current_step) := by
  induction st using run_iter.induct steps with
  | case1 st e heq =>
      unfold run_iter
      rw [heq]
      unfold loop_requests
      dsimp only
      omega
  | case2 st ctx1 heq e h2 =>
      unfold run_iter
      rw [heq]
      dsimp only
      rw [h2]
      unfold loop_requests
      dsimp only
      omega
  | case3 st ctx1 heq ctx2 life2 h2 st3 hterm =>
      have hterm' : (life2.move_forward).is_terminated = true := hterm
      unfold run_iter
      rw [heq]
      dsimp only
      rw [h2]
      dsimp only
      rw [dif_pos hterm']
      unfold loop_requests
      dsimp only
      omega
  | case4 st ctx1 heq ctx2 life2 h2 st3 hterm ih =>
      have hterm' : ¬ (life2.move_forward).is_terminated = true := hterm
      have hterm2 : (life2.move_forward).is_terminated = false := by
        simp only [Bool.not_eq_true] at hterm'
        exact hterm'
      have hlife := handle_tool_calls_life ctx1 st.life ctx2 life2 h2
      have hmax : life2.max_steps = st.life.max_steps := by
        rcases hlife with hl | hl <;> rw [hl] <;> rfl
      have hcur : life2.current_step = st.life.current_step := by
        rcases hlife with hl | hl <;> rw [hl] <;> rfl
      have hlt := move_forward_not_term life2 hterm2
      have hpre : (life2.move_forward).current_step < (life2.move_forward).max_steps := by
        rw [move_forward_current, move_forward_max]
        omega
      have ihb := ih hpre
      unfold run_iter
      rw [heq]
      dsimp only
      rw [h2]
      dsimp only
      rw [dif_neg hterm']
      refine le_trans ihb ?_
      show st.requests + 1 +
          ((life2.move_forward).max_steps - (life2.move_forward).current_step) ≤
        st.requests + (st.life.max_steps - st.life.current_step)
      rw [move_forward_current, move_forward_max, hmax, hcur]
      omega

/-- A non-terminated lifecycle enters the loop body. -/
theorem run_loop_not_term (steps : Nat → ModelStep) (st : RunState)
    (h : st.life.is_terminated = false) : run_loop steps st = run_iter steps st := by
  unfold run_loop
  rw [h]
  rw [if_neg (by decide)]

/-- C4: for a run whose lifecycle starts with a positive budget `N` and a
provider that never invokes the termination tool, the loop issues at most `N`
model requests and then stops; and after any sequence of `advance` calls on
such a lifecycle, a step counter at or past the budget implies the lifecycle
is terminated. -/
theorem C4_step_budget (N : Nat) (hN : 0 < N) (steps : Nat → ModelStep)
    (hnt : no_terminate_call steps) (ctx : Context) (fresh : Nat) :
    loop_requests (run_loop steps
      { ctx := ctx, life := { max_steps := N, current_step := 0, is_terminated := false },
        requests := 0, fresh := fresh }) ≤ N ∧
      ∀ k : Nat,
        (Lifecycle.move_forward^[k]
            { max_steps := N, current_step := 0, is_terminated := false }).current_step ≥
          (Lifecycle.move_forward^[k]
            { max_steps := N, current_step := 0, is_terminated := false }).max_steps →
        (Lifecycle.move_forward^[k]
            { max_steps := N, current_step := 0, is_terminated := false }).is_terminated =
          true := by
  constructor
  · rw [run_loop_not_term steps _ rfl]
    have hb := run_iter_requests steps
      { ctx := ctx, life := { max_steps := N, current_step := 0, is_terminated := false },
        requests := 0, fresh := fresh } hN
    simpa using hb
  · intro k
    cases k with
    | zero =>
        intro hk
        exact absurd hk (by simpa using Nat.not_le.mpr hN)
    | succ n =>
        rw [Function.iterate_succ_apply']
        exact move_forward_inv _

/-- Witness for C4 at budget 1 with a quiet provider. -/
theorem C4_step_budget_witness :
    0 < 1 ∧ no_terminate_call quiet_steps ∧
      loop_requests (run_loop quiet_steps
        { ctx := Context.build_context,
          life := { max_steps := 1, current_step := 0, is_terminated := false },
          requests := 0, fresh := 0 }) ≤ 1 ∧
      (Lifecycle.move_forward^[3]
          { max_steps := 1, current_step := 0, is_terminated := false }).is_terminated =
        true := by
  have hnt : no_terminate_call quiet_steps := by
    intro k content tcs hstep tc htc
    injection hstep with h1 h2
    subst h2
    cases htc
  refine ⟨by decide, hnt, ?_, ?_⟩
  · exact (C4_step_budget 1 (by decide) quiet_steps hnt Context.build_context 0).1
  · exact (C4_step_budget 1 (by decide) quiet_steps hnt Context.build_context 0).2 3 (by decide)

/-- C5: `terminate` sets the terminated state regardless of the step counter;
no sequence of lifecycle operations un-terminates a terminated lifecycle; and
when a model reply invokes the registered `terminate` tool with an argument
payload that decodes to the empty mapping (so the zero-parameter callable is
actually executed rather than raising), the loop ends at the next lifecycle
check after exactly this one request, whatever the current step count. -/
theorem C5_termination_one_way :
    (∀ l : Lifecycle, (l.terminate).is_terminated = true) ∧
      (∀ (l : Lifecycle) (ops : List LifeOp), l.is_terminated = true →
        (apply_ops l ops).is_terminated = true) ∧
      (∀ (steps : Nat → ModelStep) (st : RunState) (content : Option String)
          (tcs : List CompletionToolCall) (tc0 : CompletionToolCall)
          (msgs : List MessageParam),
        st.life.is_terminated = false →
        Context.get_tool st.ctx "terminate" = Option.some terminate_tool →
        steps st.requests = ModelStep.reply content tcs →
        tc0 ∈ tcs → tc0.name = "terminate" →
        decodes_to_empty_map tc0.arguments = true →
        (st.ctx.build_message).1 = Except.ok msgs →
        ∃ st2, run_loop steps st = Except.ok st2 ∧ st2.life.is_terminated = true ∧
          st2.requests = st.requests + 1) := by
  refine ⟨fun l => rfl, ?_, ?_⟩
  · intro l ops h
    unfold apply_ops
    induction ops generalizing l with
    | nil => exact h
    | cons op rest ih =>
        rw [List.foldl_cons]
        apply ih
        cases op with
        | advance => exact move_forward_keeps_term l h
        | term => rfl
  · intro steps st content tcs tc0 msgs hterm hreg hstep hmem hname hargs hser
    have hares : Model.aresponse (steps st.requests) (toString st.fresh) st.ctx =
        Except.ok (st.ctx.add_message [msg_of_reply content tcs (toString st.fresh)]) := by
      unfold Model.aresponse Model.build_request
      rw [hser, hstep]
      rfl
    have hrole : (msg_of_reply content tcs (toString st.fresh)).role ≠ Role.system := by
      intro hc
      exact Role.noConfusion hc
    have hctx1 : st.ctx.add_message [msg_of_reply content tcs (toString st.fresh)] =
        { st.ctx with
          recordings := st.ctx.recordings ++ [msg_of_reply content tcs (toString st.fresh)] } :=
      add_message_nonsystem _ _ hrole
    have hlast : (st.ctx.add_message
          [msg_of_reply content tcs (toString st.fresh)]).get_last_message =
        Except.ok (msg_of_reply content tcs (toString st.fresh)) := by
      unfold Context.get_last_message
      rw [hctx1]
      dsimp only
      rw [List.getLast?_concat]
    have hhandle : Agent.handle_tool_calls
          (st.ctx.add_message [msg_of_reply content tcs (toString st.fresh)]) st.life =
        Except.ok ((msg_of_reply content tcs (toString st.fresh)).tool_calls.foldl
          dispatch_step
          (st.ctx.add_message [msg_of_reply content tcs (toString st.fresh)], st.life)) := by
      unfold Agent.handle_tool_calls
      rw [hlast]
    have hterm2 : (((msg_of_reply content tcs (toString st.fresh)).tool_calls.foldl
          dispatch_step
          (st.ctx.add_message [msg_of_reply content tcs (toString st.fresh)],
            st.life)).2).is_terminated = true := by
      apply dispatch_foldl_term _ _ (conv_tool_call tc0)
        (List.mem_map_of_mem conv_tool_call hmem) terminate_tool
      · rw [show (conv_tool_call tc0).function.name = tc0.name from rfl, hname]
        rw [get_tool_congr
          (st.ctx.add_message [msg_of_reply content tcs (toString st.fresh)]) st.ctx
          (add_message_tools _ _)]
        exact hreg
      · show terminate_func.behavior tc0.arguments = ToolRun.term
        unfold terminate_func
        dsimp only
        rw [hargs]
        rfl
    rcases hfp : (msg_of_reply content tcs (toString st.fresh)).tool_calls.foldl dispatch_step
        (st.ctx.add_message [msg_of_reply content tcs (toString st.fresh)], st.life)
      with ⟨fc, fl⟩
    rw [hfp] at hhandle hterm2
    have hterm3 : fl.is_terminated = true := hterm2
    refine ⟨{ ctx := fc, life := fl.move_forward, requests := st.requests + 1,
                fresh := st.fresh + 1 },
      ?_, move_forward_keeps_term _ hterm3, rfl⟩
    rw [run_loop_not_term steps st hterm]
    unfold run_iter
    rw [hares]
    dsimp only
    rw [hhandle]
    dsimp only
    rw [dif_pos (move_forward_keeps_term _ hterm3)]

/-- Witness for C5 at a concrete run state whose provider immediately calls
the injected `terminate` tool. -/
theorem C5_termination_one_way_witness :
    ((Lifecycle.mk 5 3 false).terminate).is_terminated = true ∧
      ((Lifecycle.mk 5 2 true).is_terminated = true ∧
        (apply_ops (Lifecycle.mk 5 2 true)
          [LifeOp.advance, LifeOp.term, LifeOp.advance]).is_terminated = true) ∧
      ((terminating_steps 0 = ModelStep.reply (Option.some "done")
          [{ id := "tc1", name := "terminate", arguments := "{}" }]) ∧
        ∃ st2, run_loop terminating_steps
            { ctx := (Context.build_context.enter_lifecycle).1, life := Lifecycle.init,
              requests := 0, fresh := 0 } = Except.ok st2 ∧
          st2.life.is_terminated = true ∧ st2.requests = 0 + 1) := by
  refine ⟨C5_termination_one_way.1 (Lifecycle.mk 5 3 false),
    ⟨rfl, C5_termination_one_way.2.1 (Lifecycle.mk 5 2 true) _ rfl⟩, rfl, ?_⟩
  have h := C5_termination_one_way.2.2 terminating_steps
    { ctx := (Context.build_context.enter_lifecycle).1, life := Lifecycle.init,
      requests := 0, fresh := 0 }
    (Option.some "done") [{ id := "tc1", name := "terminate", arguments := "{}" }]
    { id := "tc1", name := "terminate", arguments := "{}" } [] rfl rfl rfl
    (List.mem_singleton.mpr rfl) rfl (by decide) rfl
  exact h

/-- C6: on every exit path of the run — normal completion or an escaping
error — the lifecycle is force-terminated by the scope; and a provider
rejection is not swallowed: the same error propagates out of the run, with
the lifecycle terminated by the time it does. -/
theorem C6_scope_force_terminates :
    (∀ (steps : Nat → ModelStep) (sys : String) (input : RunInput) (ctx : Context)
        (res : Option String × Context × Lifecycle),
        Agent.arun steps sys input ctx = Except.ok res → res.2.2.is_terminated = true) ∧
      (∀ (steps : Nat → ModelStep) (sys : String) (input : RunInput) (ctx : Context)
          (e : String) (l : Lifecycle),
        Agent.arun steps sys input ctx = Except.error (e, l) → l.is_terminated = true) ∧
      (∀ (steps : Nat → ModelStep) (sys s e : String), steps 0 = ModelStep.reject e →
        ∃ l, Agent.arun steps sys (RunInput.str s) Context.build_context =
            Except.error (e, l) ∧ l.is_terminated = true) := by
  refine ⟨?_, ?_, ?_⟩
  · intro steps sys input ctx res h
    unfold Agent.arun at h
    cases hr : run_loop steps (Agent.seed sys input ctx) with
    | error p =>
        rw [hr] at h
        obtain ⟨e', st'⟩ := p
        dsimp only at h
        exact Except.noConfusion h
    | ok st =>
        rw [hr] at h
        dsimp only at h
        injection h with h
        rw [← h]
        rfl
  · intro steps sys input ctx e l h
    unfold Agent.arun at h
    cases hr : run_loop steps (Agent.seed sys input ctx) with
    | error p =>
        rw [hr] at h
        obtain ⟨e', st'⟩ := p
        dsimp only at h
        injection h with h
        injection h with h1 h2
        rw [← h2]
        rfl
    | ok st =>
        rw [hr] at h
        dsimp only at h
        exact Except.noConfusion h
  · intro steps sys s e hstep
    refine ⟨Lifecycle.init.terminate, ?_, rfl⟩
    have hbm : (((Agent.seed sys (RunInput.str s) Context.build_context).ctx).build_message).1 =
        Except.ok
          [{ role := Role.system, content := MPContent.blocks [sys], tool_calls := [],
             tool_call_id := Option.none },
           { role := Role.user, content := MPContent.blocks [s], tool_calls := [],
             tool_call_id := Option.none }] := rfl
    have hares : Model.aresponse
          (steps (Agent.seed sys (RunInput.str s) Context.build_context).requests)
          (toString (Agent.seed sys (RunInput.str s) Context.build_context).fresh)
          (Agent.seed sys (RunInput.str s) Context.build_context).ctx =
        Except.error e := by
      unfold Model.aresponse Model.build_request
      rw [hbm]
      dsimp only
      rw [show (Agent.seed sys (RunInput.str s) Context.build_context).requests = 0 from rfl,
        hstep]
    have hrun : run_loop steps (Agent.seed sys (RunInput.str s) Context.build_context) =
        Except.error (e, { Agent.seed sys (RunInput.str s) Context.build_context with
          requests := (Agent.seed sys (RunInput.str s) Context.build_context).requests + 1 }) := by
      rw [run_loop_not_term steps _ rfl]
      unfold run_iter
      rw [hares]
    unfold Agent.arun
    rw [hrun]
    rfl

/-- Witness for C6: a provider that rejects the first request makes the run
propagate that error with a terminated lifecycle. -/
theorem C6_scope_force_terminates_witness :
    ∃ l, Agent.arun reject_steps "be helpful" (RunInput.str "hi") Context.build_context =
        Except.error ("BadRequestError", l) ∧ l.is_terminated = true :=
  C6_scope_force_terminates.2.2 reject_steps "be helpful" "hi" "BadRequestError" rfl

end Atfirst
